import Mathlib

/-!
Verification development for the FITS-inventory module of `uirapuruDSP`
(`src/uirapurudsp/uirapurudsp.py`): a shallow embedding of the inventory
builder (`read_fits`), the observation grouper (`read_obs`), the chunk
planner (`chunk_files`) and the data loader (`load_fits`), together with
theorems settling the specified behaviour of each.

Modelling conventions:
* pandas rows become Lean structures; megabyte sizes, second-valued
  durations, frequencies and parsed timestamps are `ℚ`;
* the DataFrame passed between `read_fits` and `read_obs` becomes a
  `List FileRow` whose positions play the role of the 0..n-1 integer
  index labels produced by `reset_index(drop=True)`;
* Python exceptions become `Except String`; the mutation of the caller's
  DataFrame performed by `read_obs` (the `Grupo` column) becomes explicit
  state passing: the model returns the updated table next to the summary.
-/

namespace UirapuruDSP

/-- One row of the inventory DataFrame built by `read_fits`
(after `reset_index(drop=True)`): file path, size in MiB, duration-delta
in seconds (`hdul[1].data["TIME"][0][-1]`), parsed `DATE_START` timestamp
(seconds), frequency bounds in MHz, axis lengths, and the optional
`Grupo` column (absent, i.e. `none`, until `read_obs` assigns it). -/
structure FileRow where
  file : String
  size : ℚ
  delta : ℚ
  dateStart : ℚ
  minfreq : ℚ
  maxfreq : ℚ
  naxis1 : ℤ
  naxis2 : ℤ
  grupo : Option ℤ := none
deriving DecidableEq, Repr

/-! ## Chunk planner: `chunk_files` (uirapurudsp.py lines 103–116)

```python
def chunk_files(obs, threshold=200):
    chunks = []
    file_chunk = []
    size = 0.0
    idxs = obs.index.to_list()
    for idx in idxs:
        if size < threshold:
            file_chunk.append(obs.File.loc[idx])
            size = size + obs.Size.loc[idx]
        else:
            chunks.append(file_chunk)
            file_chunk = []
            size = 0
    return chunks
```
-/

/-- The loop state of `chunk_files`: the closed chunks accumulated in
`chunks`, the running chunk `file_chunk`, and the running size. -/
structure ChunkState where
  chunks : List (List String)
  file_chunk : List String
  size : ℚ
deriving DecidableEq, Repr

/-- One iteration of the `for idx in idxs` loop of `chunk_files`: if the
running size is still below the threshold the row's file is appended and
its size added; otherwise the running chunk is closed and reset — note
that in this branch the current row is consumed without being added
anywhere, exactly as in the source. -/
def chunkStep (threshold : ℚ) (s : ChunkState) (r : FileRow) : ChunkState :=
  if s.size < threshold then
    { s with file_chunk := s.file_chunk ++ [r.file], size := s.size + r.size }
  else
    { s with chunks := s.chunks ++ [s.file_chunk], file_chunk := [], size := 0 }

/-- The full loop of `chunk_files`, returning the final loop state. -/
def chunkLoop (obs : List FileRow) (threshold : ℚ) : ChunkState :=
  obs.foldl (chunkStep threshold) ⟨[], [], 0⟩

/-- Model of `chunk_files(obs, threshold=200)`: returns the closed chunks only
(the trailing `file_chunk` is not flushed). -/
def chunk_files (obs : List FileRow) (threshold : ℚ := 200) : List (List String) :=
  (chunkLoop obs threshold).chunks

/-- Instrumented variant of the chunk-planner state that keeps whole rows
instead of just file paths, so that per-chunk size sums can be stated;
`chunkLoopFull` is related to `chunkLoop` by `chunkLoop_eq_projFull`. -/
structure ChunkStateFull where
  chunks : List (List FileRow)
  file_chunk : List FileRow
  size : ℚ
deriving DecidableEq, Repr

/-- Instrumented counterpart of `chunkStep`, appending the whole row. -/
def chunkStepFull (threshold : ℚ) (s : ChunkStateFull) (r : FileRow) : ChunkStateFull :=
  if s.size < threshold then
    { s with file_chunk := s.file_chunk ++ [r], size := s.size + r.size }
  else
    { s with chunks := s.chunks ++ [s.file_chunk], file_chunk := [], size := 0 }

/-- Instrumented counterpart of `chunkLoop`. -/
def chunkLoopFull (obs : List FileRow) (threshold : ℚ) : ChunkStateFull :=
  obs.foldl (chunkStepFull threshold) ⟨[], [], 0⟩

/-- Forget the non-path fields of an instrumented chunk state. -/
def projFull (s : ChunkStateFull) : ChunkState :=
  ⟨s.chunks.map (List.map FileRow.file), s.file_chunk.map FileRow.file, s.size⟩

/-- Total size (MiB) of a list of rows. -/
def sumSize (l : List FileRow) : ℚ := (l.map FileRow.size).sum

theorem chunkStep_projFull (threshold : ℚ) (s : ChunkStateFull) (r : FileRow) :
    chunkStep threshold (projFull s) r = projFull (chunkStepFull threshold s r) := by
  unfold chunkStep chunkStepFull projFull
  by_cases h : s.size < threshold <;> simp [h]

theorem chunkLoop_eq_projFull (obs : List FileRow) (threshold : ℚ) :
    chunkLoop obs threshold = projFull (chunkLoopFull obs threshold) := by
  unfold chunkLoop chunkLoopFull
  suffices h : ∀ (l : List FileRow) (s : ChunkStateFull),
      l.foldl (chunkStep threshold) (projFull s) = projFull (l.foldl (chunkStepFull threshold) s) by
    exact h obs ⟨[], [], 0⟩
  intro l
  induction l with
  | nil => intro s; rfl
  | cons r l ih =>
    intro s
    simp only [List.foldl_cons, chunkStep_projFull, ih]

/-- Invariant maintained by the `chunk_files` loop: the running size mirrors
the running chunk's total size; an empty running chunk has size 0; the
running chunk minus its last file is below the threshold; and every closed
chunk reached the threshold, and (for positive thresholds) is non-empty
with all-but-its-last-file below the threshold. -/
def ChunkInv (th : ℚ) (s : ChunkStateFull) : Prop :=
  s.size = sumSize s.file_chunk ∧
  (s.file_chunk = [] → s.size = 0) ∧
  (s.file_chunk ≠ [] → sumSize s.file_chunk.dropLast < th) ∧
  ∀ c ∈ s.chunks, th ≤ sumSize c ∧ (0 < th → c ≠ [] ∧ sumSize c.dropLast < th)

theorem sumSize_append (l₁ l₂ : List FileRow) :
    sumSize (l₁ ++ l₂) = sumSize l₁ + sumSize l₂ := by
  simp [sumSize]

theorem chunkInv_step (th : ℚ) (s : ChunkStateFull) (r : FileRow)
    (h : ChunkInv th s) : ChunkInv th (chunkStepFull th s r) := by
  obtain ⟨h1, h2, h3, h4⟩ := h
  unfold chunkStepFull
  by_cases hlt : s.size < th
  · simp only [if_pos hlt]
    refine ⟨?_, ?_, ?_, h4⟩
    · simp [sumSize_append, h1, sumSize]
    · intro h; simp at h
    · intro _
      rw [List.dropLast_concat]
      exact h1 ▸ hlt
  · simp only [if_neg hlt]
    refine ⟨by simp [sumSize], fun _ => rfl, fun h => absurd rfl h, ?_⟩
    · intro c hc
      rcases List.mem_append.mp hc with hc | hc
      · exact h4 c hc
      · have hceq : c = s.file_chunk := by simpa using hc
        subst hceq
        have hge : th ≤ s.size := le_of_not_lt hlt
        refine ⟨h1 ▸ hge, ?_⟩
        intro hth
        have hne : s.file_chunk ≠ [] := by
          intro hnil
          have := h2 hnil
          rw [this] at hge
          exact absurd (lt_of_lt_of_le hth hge) (lt_irrefl 0)
        exact ⟨hne, h3 hne⟩

theorem chunkInv_foldl (th : ℚ) (l : List FileRow) (s : ChunkStateFull)
    (h : ChunkInv th s) : ChunkInv th (l.foldl (chunkStepFull th) s) := by
  induction l generalizing s with
  | nil => exact h
  | cons r l ih => exact ih _ (chunkInv_step th s r h)

theorem chunkInv_loop (obs : List FileRow) (th : ℚ) :
    ChunkInv th (chunkLoopFull obs th) := by
  apply chunkInv_foldl
  refine ⟨by simp [sumSize], fun _ => rfl, fun h => absurd rfl h, fun c hc => absurd hc (by simp)⟩

/-- The rows placed into chunks (closed or pending) form a subsequence of
the rows walked so far. -/
theorem chunk_rows_sublist (th : ℚ) (l : List FileRow) (s : ChunkStateFull) :
    List.Sublist
      ((l.foldl (chunkStepFull th) s).chunks.flatten ++ (l.foldl (chunkStepFull th) s).file_chunk)
      ((s.chunks.flatten ++ s.file_chunk) ++ l) := by
  induction l generalizing s with
  | nil => simp
  | cons r l ih =>
    rw [List.foldl_cons]
    refine (ih (chunkStepFull th s r)).trans ?_
    unfold chunkStepFull
    by_cases hlt : s.size < th
    · simp only [if_pos hlt, List.append_assoc, List.singleton_append]
      exact List.Sublist.refl _
    · simp only [if_neg hlt, List.flatten_append, List.flatten_cons, List.flatten_nil,
        List.append_nil, List.append_assoc]
      exact List.Sublist.append_left (List.Sublist.append_left (List.sublist_cons_self r l) _) _

theorem chunkLoopFull_rows_sublist (obs : List FileRow) (th : ℚ) :
    List.Sublist
      ((chunkLoopFull obs th).chunks.flatten ++ (chunkLoopFull obs th).file_chunk) obs := by
  have := chunk_rows_sublist th obs ⟨[], [], 0⟩
  simpa [chunkLoopFull] using this

theorem chunk_files_eq_full (obs : List FileRow) (th : ℚ) :
    chunk_files obs th = ((chunkLoopFull obs th).chunks).map (List.map FileRow.file) := by
  unfold chunk_files
  rw [chunkLoop_eq_projFull]
  rfl

/-- A row with the given file name and size; the remaining metadata fields
are irrelevant to the chunk planner. -/
def mkRow (f : String) (sz : ℚ) : FileRow :=
  { file := f, size := sz, delta := 0, dateStart := 0, minfreq := 0, maxfreq := 0,
    naxis1 := 0, naxis2 := 0, grupo := none }

/-- The spec's worked example for the chunk planner:
`[f1(100MB), f2(100MB), f3(50MB)]`. -/
def obsC1 : List FileRow := [mkRow "f1" 100, mkRow "f2" 100, mkRow "f3" 50]

/-- A single 100 MB file: the walk ends with a non-empty in-progress chunk. -/
def obsPending : List FileRow := [mkRow "g1" 100]

/-- C1: on the spec's worked example (`threshold = 200`) the first chunk is
`[f1, f2]` as claimed, but `f3` does not start the following chunk: the
closing branch of `chunk_files` consumes the boundary file without adding
it anywhere, so `f3` appears neither in the returned chunks nor in the
in-progress chunk left at end of input (which is empty). -/
theorem chunk_files_skips_boundary_file :
    chunk_files obsC1 200 = [["f1", "f2"]] ∧
    (chunkLoop obsC1 200).file_chunk = [] ∧
    "f3" ∉ (chunk_files obsC1 200).flatten := by
  refine ⟨?_, ?_, ?_⟩ <;> norm_num [chunk_files, chunkLoop, chunkStep, obsC1, mkRow] <;> decide

/-- C6: `chunk_files` returns exactly the chunks closed by the threshold
check during the walk — each returned chunk's total size reached the
threshold — and the trailing in-progress chunk is not appended: for inputs
with distinct file names, no file of the final in-progress chunk occurs in
the output. -/
theorem chunk_files_only_closed_chunks (obs : List FileRow) (th : ℚ) :
    chunk_files obs th = ((chunkLoopFull obs th).chunks).map (List.map FileRow.file) ∧
    (∀ c ∈ (chunkLoopFull obs th).chunks, th ≤ sumSize c) ∧
    ((obs.map FileRow.file).Nodup →
      ∀ r ∈ (chunkLoopFull obs th).file_chunk, r.file ∉ (chunk_files obs th).flatten) := by
  refine ⟨chunk_files_eq_full obs th,
    fun c hc => ((chunkInv_loop obs th).2.2.2 c hc).1, ?_⟩
  intro hnodup r hr hmem
  have hsub := (chunkLoopFull_rows_sublist obs th).map FileRow.file
  rw [List.map_append] at hsub
  have hnd := List.Nodup.sublist hsub hnodup
  have hdisj := (List.nodup_append.mp hnd).2.2
  have hmem₁ : r.file ∈ ((chunkLoopFull obs th).chunks.flatten).map FileRow.file := by
    rw [chunk_files_eq_full, ← List.map_flatten] at hmem
    exact hmem
  exact hdisj hmem₁ (List.mem_map_of_mem FileRow.file hr)

/-- Witness for C6 at a concrete input: the single 100 MB file ends the walk
inside the in-progress chunk and is absent from the (empty) output. -/
theorem chunk_files_only_closed_chunks_witness :
    "g1" ∉ (chunk_files obsPending 200).flatten :=
  (chunk_files_only_closed_chunks obsPending 200).2.2 (by decide) (mkRow "g1" 100)
    (by norm_num [chunkLoopFull, chunkStepFull, obsPending, mkRow])

/-- C7: for a positive threshold and positive file sizes, every chunk
returned by `chunk_files` is non-empty, and each chunk exceeds the
threshold by at most its final file: the chunk's cumulative size minus its
last file's size is strictly below the threshold. -/
theorem chunk_files_threshold_invariant (obs : List FileRow) (th : ℚ)
    (hth : 0 < th) (hsz : ∀ r ∈ obs, 0 < r.size) :
    (∀ c ∈ chunk_files obs th, c ≠ []) ∧
    chunk_files obs th = ((chunkLoopFull obs th).chunks).map (List.map FileRow.file) ∧
    ∀ c ∈ (chunkLoopFull obs th).chunks, c ≠ [] ∧ sumSize c.dropLast < th := by
  have hinv := (chunkInv_loop obs th).2.2.2
  refine ⟨?_, chunk_files_eq_full obs th, fun c hc => (hinv c hc).2 hth⟩
  intro c hc
  rw [chunk_files_eq_full] at hc
  obtain ⟨c', hc', rfl⟩ := List.mem_map.mp hc
  have := ((hinv c' hc').2 hth).1
  simpa using this

/-- Witness for C7 at the spec's worked example. -/
theorem chunk_files_threshold_invariant_witness :
    (∀ c ∈ chunk_files obsC1 200, c ≠ []) ∧
    chunk_files obsC1 200 = ((chunkLoopFull obsC1 200).chunks).map (List.map FileRow.file) ∧
    ∀ c ∈ (chunkLoopFull obsC1 200).chunks, c ≠ [] ∧ sumSize c.dropLast < 200 :=
  chunk_files_threshold_invariant obsC1 200 (by norm_num)
    (by intro r hr; simp only [obsC1] at hr; fin_cases hr <;> norm_num [mkRow])

/-- C10: `chunk_files` never duplicates or reorders its input — the
concatenation of the returned chunks is a subsequence of the input file
list, and for inputs with distinct file names each file occurs at most once
across all returned chunks. -/
theorem chunk_files_subsequence (obs : List FileRow) (th : ℚ) :
    List.Sublist (chunk_files obs th).flatten (obs.map FileRow.file) ∧
    ((obs.map FileRow.file).Nodup → (chunk_files obs th).flatten.Nodup) := by
  have h1 : List.Sublist (chunkLoopFull obs th).chunks.flatten obs :=
    (List.sublist_append_left _ _).trans (chunkLoopFull_rows_sublist obs th)
  have heq : (chunk_files obs th).flatten
      = ((chunkLoopFull obs th).chunks.flatten).map FileRow.file := by
    rw [chunk_files_eq_full, List.map_flatten]
  constructor
  · rw [heq]
    exact h1.map FileRow.file
  · intro hnodup
    rw [heq]
    exact List.Nodup.sublist (h1.map FileRow.file) hnodup

/-- Witness for C10 at the spec's worked example. -/
theorem chunk_files_subsequence_witness : (chunk_files obsC1 200).flatten.Nodup :=
  (chunk_files_subsequence obsC1 200).2 (by decide)

/-! ## Inventory builder: `read_fits` (uirapurudsp.py lines 11–48)

The per-file FITS reading (astropy) and the datetime parse
(`pd.to_datetime(df["DATE-OBS"] + "T" + df["TIME-OBS"])`) are library
calls; a `RawHeader` carries the values they produce for one scanned file
(frequencies still in Hz, the timestamp already combined and parsed).
The modelled `read_fits` performs the remaining transformation of the
source: Hz→MHz conversion (`/ 1e6`) and
`sort_values(["MINFREQ", "NAXIS1", "DATE_START"])` followed by
`reset_index(drop=True)`.
-/

/-- Metadata extracted from one `.fit` file by the scan loop of
`read_fits`: path, size in MiB, parsed start timestamp, frequency bounds
in Hz, axis lengths, and the duration-delta (last internal time sample). -/
structure RawHeader where
  file : String
  sizeMiB : ℚ
  dateStart : ℚ
  minfreqHz : ℚ
  maxfreqHz : ℚ
  naxis1 : ℤ
  naxis2 : ℤ
  delta : ℚ
deriving DecidableEq, Repr

/-- Column typing and unit normalization of `read_fits`: frequencies are
divided by 1e6; no `Grupo` column exists yet. -/
def toFileRow (h : RawHeader) : FileRow :=
  { file := h.file, size := h.sizeMiB, delta := h.delta, dateStart := h.dateStart,
    minfreq := h.minfreqHz / 1000000, maxfreq := h.maxfreqHz / 1000000,
    naxis1 := h.naxis1, naxis2 := h.naxis2, grupo := none }

/-- The lexicographic comparison realised by
`sort_values(["MINFREQ", "NAXIS1", "DATE_START"])`. -/
def keyLe (a b : FileRow) : Bool :=
  decide (a.minfreq < b.minfreq) ||
  (decide (a.minfreq = b.minfreq) &&
    (decide (a.naxis1 < b.naxis1) ||
     (decide (a.naxis1 = b.naxis1) && decide (a.dateStart ≤ b.dateStart))))

/-- Propositional form of `keyLe`. -/
def KeyLeP (a b : FileRow) : Prop :=
  a.minfreq < b.minfreq ∨
  (a.minfreq = b.minfreq ∧
    (a.naxis1 < b.naxis1 ∨ (a.naxis1 = b.naxis1 ∧ a.dateStart ≤ b.dateStart)))

theorem keyLe_iff (a b : FileRow) : keyLe a b = true ↔ KeyLeP a b := by
  simp [keyLe, KeyLeP]

/-- Model of `read_fits`: build the typed, unit-normalized inventory rows and sort
them by (MINFREQ, NAXIS1, DATE_START). -/
def read_fits (raws : List RawHeader) : List FileRow :=
  (raws.map toFileRow).mergeSort keyLe

theorem keyLe_trans (a b c : FileRow) (hab : keyLe a b) (hbc : keyLe b c) : keyLe a c := by
  rw [keyLe_iff] at hab hbc ⊢
  rcases hab with h1 | ⟨he1, h1⟩
  · rcases hbc with h2 | ⟨he2, _⟩
    · exact Or.inl (h1.trans h2)
    · exact Or.inl (he2 ▸ h1)
  · rcases hbc with h2 | ⟨he2, h2⟩
    · exact Or.inl (he1 ▸ h2)
    · refine Or.inr ⟨he1.trans he2, ?_⟩
      rcases h1 with h1 | ⟨hn1, h1⟩
      · rcases h2 with h2 | ⟨hn2, _⟩
        · exact Or.inl (h1.trans h2)
        · exact Or.inl (hn2 ▸ h1)
      · rcases h2 with h2 | ⟨hn2, h2⟩
        · exact Or.inl (hn1 ▸ h2)
        · exact Or.inr ⟨hn1.trans hn2, h1.trans h2⟩

theorem keyLe_total (a b : FileRow) : keyLe a b || keyLe b a := by
  simp only [Bool.or_eq_true]
  rw [keyLe_iff, keyLe_iff]
  rcases lt_trichotomy a.minfreq b.minfreq with h | h | h
  · exact Or.inl (Or.inl h)
  · rcases lt_trichotomy a.naxis1 b.naxis1 with hn | hn | hn
    · exact Or.inl (Or.inr ⟨h, Or.inl hn⟩)
    · rcases le_total a.dateStart b.dateStart with hd | hd
      · exact Or.inl (Or.inr ⟨h, Or.inr ⟨hn, hd⟩⟩)
      · exact Or.inr (Or.inr ⟨h.symm, Or.inr ⟨hn.symm, hd⟩⟩)
    · exact Or.inr (Or.inr ⟨h.symm, Or.inl hn⟩)
  · exact Or.inr (Or.inl h)

/-- The first two components of the sort key. -/
def sortKey2 (r : FileRow) : ℚ × ℤ := (r.minfreq, r.naxis1)

/-- The grouper's bucket key (MINFREQ, MAXFREQ, NAXIS1). -/
def bucketKey (r : FileRow) : ℚ × ℚ × ℤ := (r.minfreq, r.maxfreq, r.naxis1)

theorem keyLeP_minfreq_le {a b : FileRow} (h : KeyLeP a b) : a.minfreq ≤ b.minfreq := by
  rcases h with h | ⟨h, _⟩
  · exact le_of_lt h
  · exact le_of_eq h

theorem keyLeP_naxis1_le {a b : FileRow} (h : KeyLeP a b) (he : a.minfreq = b.minfreq) :
    a.naxis1 ≤ b.naxis1 := by
  rcases h with h | ⟨_, h | ⟨h, _⟩⟩
  · exact absurd he (ne_of_lt h)
  · exact le_of_lt h
  · exact le_of_eq h

/-- Between two rows with equal (MINFREQ, NAXIS1), every row squeezed by
the sort order also has that (MINFREQ, NAXIS1). -/
theorem sortKey2_squeeze {a b c : FileRow} (hab : keyLe a b) (hbc : keyLe b c)
    (hac : sortKey2 a = sortKey2 c) : sortKey2 b = sortKey2 a := by
  rw [keyLe_iff] at hab hbc
  have hm : a.minfreq = c.minfreq := congrArg Prod.fst hac
  have hn : a.naxis1 = c.naxis1 := congrArg Prod.snd hac
  have hm1 : a.minfreq ≤ b.minfreq := keyLeP_minfreq_le hab
  have hm2 : b.minfreq ≤ c.minfreq := keyLeP_minfreq_le hbc
  have hmb : b.minfreq = a.minfreq := le_antisymm (hm ▸ hm2) hm1
  have hn1 : a.naxis1 ≤ b.naxis1 := keyLeP_naxis1_le hab hmb.symm
  have hn2 : b.naxis1 ≤ c.naxis1 := keyLeP_naxis1_le hbc (hmb.trans hm)
  have hnb : b.naxis1 = a.naxis1 := le_antisymm (hn ▸ hn2) hn1
  simp [sortKey2, hmb, hnb]

/-- C8 (amended): `read_fits` output is sorted ascending by
(MINFREQ, NAXIS1, DATE_START), and records sharing (MINFREQ, NAXIS1) are
adjacent — so records sharing a full bucket are time-adjacent whenever no
distinct MAXFREQ values coexist at one (MINFREQ, NAXIS1). -/
theorem read_fits_sorted (raws : List RawHeader) (hne : raws ≠ []) :
    (read_fits raws).Pairwise (fun a b => keyLe a b = true) ∧
    ∀ i j k : Fin (read_fits raws).length, i < j → j < k →
      sortKey2 ((read_fits raws).get i) = sortKey2 ((read_fits raws).get k) →
      sortKey2 ((read_fits raws).get j) = sortKey2 ((read_fits raws).get i) := by
  have hsorted : (read_fits raws).Pairwise (fun a b => keyLe a b = true) :=
    @List.sorted_mergeSort FileRow keyLe keyLe_trans keyLe_total (raws.map toFileRow)
  refine ⟨hsorted, ?_⟩
  intro i j k hij hjk hac
  have h1 := List.pairwise_iff_get.mp hsorted i j hij
  have h2 := List.pairwise_iff_get.mp hsorted j k hjk
  exact sortKey2_squeeze h1 h2 hac

/-- Three raw headers sharing (MINFREQ, NAXIS1) where the middle one has a
different MAXFREQ: bucket (45 MHz, 870 MHz, 100) is split in the sorted
output. -/
def rawA : RawHeader := ⟨"a", 1, 0, 45000000, 870000000, 100, 4, 1⟩

/-- Middle record with MAXFREQ 900 MHz instead of 870 MHz. -/
def rawB : RawHeader := ⟨"b", 1, 1, 45000000, 900000000, 100, 4, 1⟩

/-- Third record, same bucket as `rawA`, later timestamp. -/
def rawC : RawHeader := ⟨"c", 1, 2, 45000000, 870000000, 100, 4, 1⟩

/-- C8 counterexample: MAXFREQ is not part of the sort key, so two records
of one bucket can be separated in the sorted inventory by a record of a
different bucket: the claim's "records sharing a bucket are time-adjacent"
fails on this input. -/
theorem read_fits_bucket_adjacency_fails :
    read_fits [rawA, rawB, rawC] = [toFileRow rawA, toFileRow rawB, toFileRow rawC] ∧
    bucketKey (toFileRow rawA) = bucketKey (toFileRow rawC) ∧
    bucketKey (toFileRow rawB) ≠ bucketKey (toFileRow rawA) := by
  refine ⟨?_, ?_, ?_⟩
  · unfold read_fits
    apply List.mergeSort_of_sorted
    have hAB : keyLe (toFileRow rawA) (toFileRow rawB) = true := by
      rw [keyLe_iff]; norm_num [KeyLeP, toFileRow, rawA, rawB]
    have hAC : keyLe (toFileRow rawA) (toFileRow rawC) = true := by
      rw [keyLe_iff]; norm_num [KeyLeP, toFileRow, rawA, rawC]
    have hBC : keyLe (toFileRow rawB) (toFileRow rawC) = true := by
      rw [keyLe_iff]; norm_num [KeyLeP, toFileRow, rawB, rawC]
    simp only [List.map_cons, List.map_nil]
    refine List.Pairwise.cons ?_ (List.Pairwise.cons ?_ (List.Pairwise.cons ?_ List.Pairwise.nil))
    · intro b hb
      simp only [List.mem_cons, List.not_mem_nil, or_false] at hb
      rcases hb with rfl | rfl
      · exact hAB
      · exact hAC
    · intro b hb
      simp only [List.mem_cons, List.not_mem_nil, or_false] at hb
      subst hb
      exact hBC
    · intro b hb
      exact absurd hb (List.not_mem_nil b)
  · norm_num [bucketKey, toFileRow, rawA, rawC]
  · norm_num [bucketKey, toFileRow, rawA, rawB, Prod.ext_iff]

/-- Witness for C8 (amended) at the concrete three-record inventory. -/
theorem read_fits_sorted_witness :
    (read_fits [rawA, rawB, rawC]).Pairwise (fun a b => keyLe a b = true) ∧
    ∀ i j k : Fin (read_fits [rawA, rawB, rawC]).length, i < j → j < k →
      sortKey2 ((read_fits [rawA, rawB, rawC]).get i)
        = sortKey2 ((read_fits [rawA, rawB, rawC]).get k) →
      sortKey2 ((read_fits [rawA, rawB, rawC]).get j)
        = sortKey2 ((read_fits [rawA, rawB, rawC]).get i) :=
  read_fits_sorted [rawA, rawB, rawC] (by simp)

/-! ## Observation grouper: `read_obs` (uirapurudsp.py lines 50–90)

```python
dfg = df.groupby(["MINFREQ", "MAXFREQ", "NAXIS1"])[["DELTA", "DATE_START"]].apply(
    lambda val: np.abs(val.iloc[:, 1].diff().dt.total_seconds()[1:] - val.iloc[1:, 0]) < 300)
series = dfg.sum()
groups = series.groupby((series != series.shift()).cumsum())
contiguous_ones = [group for _, group in groups if group.iloc[0] == 1]
for ii, group in enumerate(contiguous_ones):
    idx = group.index
    df.loc[idx, "Grupo"] = int(ii)
df_sum = (df.dropna().groupby("Grupo")[...].agg({"DATE_START": "first", "DELTA": "sum",
    "Size": "sum", "MINFREQ": "first", "MAXFREQ": "first", "NAXIS1": "first"}))
df_sum["Size"] = df_sum["Size"] / 1024
df_sum = df_sum.round({"Size": 2})
df_sum["DELTA"] = df_sum.DELTA.apply(lambda val: pd.Timedelta(val, unit="s").round("s"))
df_sum = df_sum.reset_index().dropna()
df_sum["Grupo"] = df_sum["Grupo"].astype(int)
```

Rows are indexed by position (the labels `0..n-1` of the input frame).
The per-bucket lambda pairs each row with its predecessor inside the
bucket and yields one boolean per non-first row, labelled by that row's
original index; `series` holds those booleans as 1/0 ordered by original
index; runs of consecutive equal values are split, runs of ones receive
group numbers, the rows of each run get the `Grupo` column set in place,
`dropna()` keeps exactly the rows with an assigned `Grupo` (all other
columns are always populated), and per-`Grupo` aggregation produces the
summary. `np.round` / `Timedelta.round` round half to even. -/

/-- The per-bucket contiguity lambda of `read_obs`. The bucket `g` carries
rows with their original indices; `val.iloc[:, 1].diff()[1:]` is the list
of timestamp differences of consecutive rows, and `val.iloc[1:, 0]` is
DELTA *of the later row of each pair* (index alignment matches the
differences positionally). The output boolean for pair (i-1, i) is
labelled with row i's original index. -/
def bucketFlags (g : List (ℕ × FileRow)) : List (ℕ × Bool) :=
  List.zipWith
    (fun p q => (q.1, decide (|q.2.dateStart - p.2.dateStart - q.2.delta| < 300)))
    g g.tail

/-- The claim's reading of the contiguity test (spec section 4.2): the
duration-delta subtracted from the timestamp difference is that of the
*earlier* record of the pair. Stated from the spec's words, for comparison
with `bucketFlags`. -/
def bucketFlagsClaimEarlierDelta (g : List (ℕ × FileRow)) : List (ℕ × Bool) :=
  List.zipWith
    (fun p q => (q.1, decide (|q.2.dateStart - p.2.dateStart - p.2.delta| < 300)))
    g g.tail

/-- All contiguity flags of `df`, bucket by bucket, each labelled with its
row's original index (`dfg` in the source, before summation). -/
def allFlags (df : List FileRow) : List (ℕ × Bool) :=
  ((df.enum.map (fun p => bucketKey p.2)).dedup).flatMap
    (fun k => bucketFlags (df.enum.filter (fun p => decide (bucketKey p.2 = k))))

/-- Model of `series = dfg.sum()`: the flags as 0/1 integers, ordered by original
row index. -/
def seriesOf (df : List FileRow) : List (ℕ × ℕ) :=
  ((allFlags df).mergeSort (fun a b => decide (a.1 ≤ b.1))).map
    (fun p => (p.1, if p.2 then 1 else 0))

/-- Model of `series.groupby((series != series.shift()).cumsum())`: split into
maximal runs of consecutive equal values. -/
def runSplit : List (ℕ × ℕ) → List (List (ℕ × ℕ))
  | [] => []
  | x :: xs =>
    match runSplit xs with
    | [] => [[x]]
    | r :: rs =>
      match r with
      | [] => [x] :: rs
      | y :: _ => if x.2 = y.2 then (x :: r) :: rs else [x] :: r :: rs

/-- Model of `contiguous_ones`: the runs whose first value is 1. -/
def contiguousOnes (df : List FileRow) : List (List (ℕ × ℕ)) :=
  (runSplit (seriesOf df)).filter
    (fun g => match g with | p :: _ => decide (p.2 = 1) | [] => false)

/-- Model of `df.loc[idx, "Grupo"] = int(ii)`: set the `Grupo` column of the rows
at the given index labels. -/
def setGrupo (rows : List FileRow) (idxs : List ℕ) (ii : ℤ) : List FileRow :=
  rows.enum.map (fun p => if p.1 ∈ idxs then { p.2 with grupo := some ii } else p.2)

/-- The `for ii, group in enumerate(contiguous_ones)` assignment loop. -/
def assignGroups (df : List FileRow) : List FileRow :=
  (contiguousOnes df).enum.foldl
    (fun rows p => setGrupo rows (p.2.map Prod.fst) (p.1 : ℤ)) df

/-- One row of the summary frame `df_sum` returned by `read_obs`. -/
structure ObsSummary where
  grupo : ℤ
  dateStart : ℚ
  delta : ℤ
  sizeGiB : ℚ
  minfreq : ℚ
  maxfreq : ℚ
  naxis1 : ℤ
deriving DecidableEq, Repr

/-- Rounding to integer with `np.round` / `pd.Timedelta.round` semantics: half to even. -/
def roundHalfEven (x : ℚ) : ℤ :=
  if x - ⌊x⌋ = 1/2 then (if ⌊x⌋ % 2 = 0 then ⌊x⌋ else ⌊x⌋ + 1) else round x

/-- Rounding of the Size column to 2 decimals with `np.round` semantics. -/
def npRound2 (x : ℚ) : ℚ := (roundHalfEven (x * 100) : ℚ) / 100

/-- Total duration-delta (seconds) of a list of rows. -/
def sumDelta (l : List FileRow) : ℚ := (l.map FileRow.delta).sum

/-- The per-group aggregation of `read_obs`: first DATE_START, summed
DELTA rounded to the second, summed Size divided by 1024 and rounded to 2
decimals, first MINFREQ/MAXFREQ/NAXIS1. -/
def groupAgg (g : ℤ) (rows : List FileRow) : ObsSummary :=
  { grupo := g,
    dateStart := ((rows.head?).map FileRow.dateStart).getD 0,
    delta := roundHalfEven (sumDelta rows),
    sizeGiB := npRound2 (sumSize rows / 1024),
    minfreq := ((rows.head?).map FileRow.minfreq).getD 0,
    maxfreq := ((rows.head?).map FileRow.maxfreq).getD 0,
    naxis1 := ((rows.head?).map FileRow.naxis1).getD 0 }

/-- Model of `read_obs(df)`: returns the input table after the in-place `Grupo`
assignments together with the summary frame `df_sum`. `df.dropna()` keeps
the rows with an assigned `Grupo` (every other column is always
populated); `groupby("Grupo")` iterates the distinct group ids in
ascending order; the trailing `reset_index().dropna().astype(int)` is the
identity here. -/
def read_obs (df : List FileRow) : List FileRow × List ObsSummary :=
  let dfAssigned := assignGroups df
  let dropped := dfAssigned.filter (fun r => r.grupo.isSome)
  let keys := ((dropped.filterMap FileRow.grupo).dedup).mergeSort (fun a b => decide (a ≤ b))
  (dfAssigned,
   keys.map (fun g => groupAgg g (dropped.filter (fun r => decide (r.grupo = some g)))))

/-- A 1000-second recording starting at t = 0 (bucket 45–870 MHz, 100
samples): back-to-back with a recording starting at t = 1000. -/
def rowP : FileRow :=
  { file := "p", size := 1, delta := 1000, dateStart := 0, minfreq := 45, maxfreq := 870,
    naxis1 := 100, naxis2 := 4, grupo := none }

/-- A zero-length recording starting at t = 1000, same bucket as `rowP`. -/
def rowQ : FileRow :=
  { file := "q", size := 1, delta := 0, dateStart := 1000, minfreq := 45, maxfreq := 870,
    naxis1 := 100, naxis2 := 4, grupo := none }

/-- C2 counterexample: for the pair (`rowP`, `rowQ`) the gap computed with
the earlier record's delta is 0 (< 300, so the claim marks the pair
contiguous), but the code subtracts the *later* record's delta
(`val.iloc[1:, 0]`) and does not mark the pair. -/
theorem read_obs_contiguity_counterexample :
    bucketFlags [(0, rowP), (1, rowQ)] = [(1, false)] ∧
    bucketFlagsClaimEarlierDelta [(0, rowP), (1, rowQ)] = [(1, true)] := by
  constructor <;>
    simp only [bucketFlags, bucketFlagsClaimEarlierDelta, List.tail_cons, List.zipWith_cons_cons,
      List.zipWith_nil_right, Prod.mk.injEq, decide_eq_false_iff_not, decide_eq_true_eq] <;>
    norm_num [rowP, rowQ]

/-- C2 (amended): within each bucket, `read_obs` marks the adjacent pair
(i-1, i) as contiguous exactly when
`|(start[i] - start[i-1]).total_seconds() - delta[i]| < 300`, the
duration-delta being that of the *later* record i of the pair. -/
theorem read_obs_contiguity_uses_later_delta (g : List (ℕ × FileRow)) (i : ℕ)
    (h : i + 1 < g.length) :
    (bucketFlags g)[i]? =
      some ((g.get ⟨i + 1, h⟩).1,
        decide (|(g.get ⟨i + 1, h⟩).2.dateStart - (g.get ⟨i, Nat.lt_of_succ_lt h⟩).2.dateStart
          - (g.get ⟨i + 1, h⟩).2.delta| < 300)) := by
  have hlen : i < (bucketFlags g).length := by
    simp only [bucketFlags, List.length_zipWith, List.length_tail]
    omega
  rw [List.getElem?_eq_getElem hlen]
  simp only [bucketFlags, List.getElem_zipWith, List.getElem_tail, List.get_eq_getElem]

/-- Witness for C2 (amended) at the concrete pair (`rowP`, `rowQ`). -/
theorem read_obs_contiguity_uses_later_delta_witness :
    (bucketFlags [(0, rowP), (1, rowQ)])[0]? =
      some (1, decide (|rowQ.dateStart - rowP.dateStart - rowQ.delta| < 300)) := by
  have := read_obs_contiguity_uses_later_delta [(0, rowP), (1, rowQ)] 0 (by norm_num)
  simpa using this

theorem dedup_const {α : Type} [DecidableEq α] :
    ∀ (l : List α) (k : α), l ≠ [] → (∀ x ∈ l, x = k) → l.dedup = [k]
  | [], k, hne, _ => absurd rfl hne
  | [x], k, _, hall => by
    have hx : x = k := hall x (by simp)
    subst hx
    simp
  | x :: y :: tl, k, _, hall => by
    have hx : x = k := hall x (by simp)
    have ih := dedup_const (y :: tl) k (by simp) (fun z hz => hall z (List.mem_cons_of_mem x hz))
    have hmem : x ∈ y :: tl := by
      have hy : y = k := hall y (by simp)
      rw [hx, hy]
      simp
    rw [List.dedup_cons_of_mem hmem, ih]

/-- Within one bucket whose every adjacent pair passes the contiguity test,
the lambda produces an all-`True` flag series labelled by the indices of
the non-first rows. -/
theorem bucketFlags_enumFrom_true :
    ∀ (l : List FileRow) (i : ℕ),
      List.Chain' (fun a b => |b.dateStart - a.dateStart - b.delta| < 300) l →
      bucketFlags (List.enumFrom i l)
        = (List.range' (i + 1) (l.length - 1)).map (fun j => (j, true))
  | [], i, _ => by simp [bucketFlags]
  | [x], i, _ => by simp [bucketFlags]
  | x :: y :: tl, i, hc => by
    obtain ⟨hxy, hc2⟩ := List.chain'_cons.mp hc
    have ih := bucketFlags_enumFrom_true (y :: tl) (i + 1) hc2
    simp only [bucketFlags, List.enumFrom_cons, List.tail_cons, List.zipWith_cons_cons,
      List.length_cons] at ih ⊢
    rw [show (tl.length + 1 + 1) - 1 = tl.length + 1 from rfl, List.range'_succ, List.map_cons]
    refine congrArg₂ List.cons ?_ ?_
    · simp [decide_eq_true_eq, hxy]
    · simpa using ih

theorem runSplit_const (v : ℕ) :
    ∀ (l : List (ℕ × ℕ)), l ≠ [] → (∀ p ∈ l, p.2 = v) → runSplit l = [l]
  | [], hne, _ => absurd rfl hne
  | [x], _, _ => by simp [runSplit]
  | x :: y :: tl, _, hall => by
    have ih := runSplit_const v (y :: tl) (by simp)
      (fun z hz => hall z (List.mem_cons_of_mem x hz))
    have hx : x.2 = v := hall x (by simp)
    have hy : y.2 = v := hall y (by simp)
    rw [runSplit, ih]
    simp [hx, hy]

theorem setGrupo_enumFrom_all_mem (g : ℤ) (idxs : List ℕ) :
    ∀ (tl : List FileRow) (i : ℕ),
      (∀ j, i ≤ j → j < i + tl.length → j ∈ idxs) →
      (List.enumFrom i tl).map
          (fun p => if p.1 ∈ idxs then { p.2 with grupo := some g } else p.2)
        = tl.map (fun r => { r with grupo := some g })
  | [], i, _ => by simp
  | x :: tl, i, hall => by
    have hi : i ∈ idxs := hall i le_rfl (by simp)
    have ih := setGrupo_enumFrom_all_mem g idxs tl (i + 1)
      (fun j h1 h2 => hall j (by omega) (by simp at h2 ⊢; omega))
    simp only [List.enumFrom_cons, List.map_cons, if_pos hi, ih]

theorem sumDelta_map_setg (l : List FileRow) (g : ℤ) :
    sumDelta (l.map (fun r => { r with grupo := some g })) = sumDelta l := by
  unfold sumDelta
  rw [List.map_map]
  rfl

theorem sumSize_map_setg (l : List FileRow) (g : ℤ) :
    sumSize (l.map (fun r => { r with grupo := some g })) = sumSize l := by
  unfold sumSize
  rw [List.map_map]
  rfl

/-- Evaluation of `read_obs` on a table that is one bucket whose every
adjacent pair passes the contiguity test: one run of ones is found, the
rows after the anchor get `Grupo = 0` in place, and the single summary row
aggregates those rows — the anchor record `r0` is not part of the group. -/
theorem read_obs_single_bucket_eval (r0 r1 : FileRow) (rest : List FileRow)
    (hb : ∀ r ∈ r0 :: r1 :: rest, bucketKey r = bucketKey r0)
    (hg : r0.grupo = none)
    (hc : List.Chain' (fun a b => |b.dateStart - a.dateStart - b.delta| < 300)
      (r0 :: r1 :: rest)) :
    read_obs (r0 :: r1 :: rest)
      = (r0 :: (r1 :: rest).map (fun r => { r with grupo := some (0:ℤ) }),
         [{ grupo := 0, dateStart := r1.dateStart,
            delta := roundHalfEven (sumDelta (r1 :: rest)),
            sizeGiB := npRound2 (sumSize (r1 :: rest) / 1024),
            minfreq := r1.minfreq, maxfreq := r1.maxfreq, naxis1 := r1.naxis1 }]) := by
  have hkeys : (((r0 :: r1 :: rest).enum.map (fun p => bucketKey p.2)).dedup)
      = [bucketKey r0] := by
    apply dedup_const
    · simp [List.enum_cons]
    · intro x hx
      obtain ⟨p, hp, rfl⟩ := List.mem_map.mp hx
      exact hb p.2 (List.snd_mem_of_mem_enum hp)
  have hfilter : (r0 :: r1 :: rest).enum.filter
      (fun p => decide (bucketKey p.2 = bucketKey r0)) = (r0 :: r1 :: rest).enum := by
    rw [List.filter_eq_self]
    intro p hp
    simpa using hb p.2 (List.snd_mem_of_mem_enum hp)
  have hflags : allFlags (r0 :: r1 :: rest)
      = (List.range' 1 (rest.length + 1)).map (fun j => (j, true)) := by
    unfold allFlags
    rw [hkeys]
    simp only [List.flatMap_cons, List.flatMap_nil, List.append_nil]
    rw [hfilter]
    have h := bucketFlags_enumFrom_true (r0 :: r1 :: rest) 0 hc
    simpa [List.enum] using h
  have hseries : seriesOf (r0 :: r1 :: rest)
      = (1, 1) :: (List.range' 2 rest.length).map (fun j => (j, (1:ℕ))) := by
    unfold seriesOf
    rw [hflags]
    rw [List.mergeSort_of_sorted]
    · rw [List.range'_succ, List.map_cons, List.map_cons, List.map_map]
      refine congrArg₂ List.cons rfl ?_
      apply List.map_congr_left
      intro j _
      simp
    · rw [List.pairwise_map]
      refine (List.pairwise_lt_range' 1 (rest.length + 1)).imp ?_
      intro a b h
      exact decide_eq_true (le_of_lt h)
  have hones : contiguousOnes (r0 :: r1 :: rest)
      = [(1, 1) :: (List.range' 2 rest.length).map (fun j => (j, (1:ℕ)))] := by
    unfold contiguousOnes
    rw [hseries]
    rw [runSplit_const 1 _ (by simp) ?hall]
    · simp
    case hall =>
      intro p hp
      rcases List.mem_cons.mp hp with rfl | hp
      · rfl
      · obtain ⟨j, _, rfl⟩ := List.mem_map.mp hp
        rfl
  have hidxs : (((1, 1) :: (List.range' 2 rest.length).map (fun j => (j, (1:ℕ)))).map Prod.fst)
      = List.range' 1 (rest.length + 1) := by
    rw [List.range'_succ, List.map_cons, List.map_map]
    simp [Function.comp_def]
  have hassign : assignGroups (r0 :: r1 :: rest)
      = r0 :: (r1 :: rest).map (fun r => { r with grupo := some (0:ℤ) }) := by
    unfold assignGroups
    rw [hones]
    simp only [List.enum_cons, List.enumFrom_nil, List.foldl_cons, List.foldl_nil]
    rw [hidxs]
    unfold setGrupo
    rw [List.enum_cons, List.map_cons]
    refine congrArg₂ List.cons ?_ ?_
    · have h0 : (0:ℕ) ∉ List.range' 1 (rest.length + 1) := by
        simp [List.mem_range'_1]
      simp [h0]
    · refine setGrupo_enumFrom_all_mem 0 _ (r1 :: rest) 1 ?_
      intro j h1 h2
      rw [List.mem_range'_1]
      simp only [List.length_cons] at h2
      omega
  have hdrop : (r0 :: (r1 :: rest).map (fun r => { r with grupo := some (0:ℤ) })).filter
      (fun r => r.grupo.isSome) = (r1 :: rest).map (fun r => { r with grupo := some (0:ℤ) }) := by
    rw [List.filter_cons, hg]
    simp only [Option.isSome_none, Bool.false_eq_true, if_false]
    rw [List.filter_eq_self]
    intro r hr
    obtain ⟨r', _, rfl⟩ := List.mem_map.mp hr
    rfl
  have hkeys2 : ((((r1 :: rest).map (fun r => { r with grupo := some (0:ℤ) })).filterMap
      FileRow.grupo).dedup) = [(0:ℤ)] := by
    apply dedup_const
    · simp
    · intro x hx
      obtain ⟨r, hrmem, hfr⟩ := List.mem_filterMap.mp hx
      obtain ⟨r', _, rfl⟩ := List.mem_map.mp hrmem
      exact (Option.some.inj hfr).symm
  have hfilter2 : ((r1 :: rest).map (fun r => { r with grupo := some (0:ℤ) })).filter
      (fun r => decide (r.grupo = some (0:ℤ)))
      = (r1 :: rest).map (fun r => { r with grupo := some (0:ℤ) }) := by
    rw [List.filter_eq_self]
    intro r hr
    obtain ⟨r', _, rfl⟩ := List.mem_map.mp hr
    simp
  simp only [read_obs]
  rw [hassign, hdrop, hkeys2]
  rw [List.mergeSort_of_sorted (by simp)]
  rw [List.map_singleton]
  rw [hfilter2]
  refine congrArg₂ Prod.mk rfl (congrArg (fun x => [x]) ?_)
  unfold groupAgg
  rw [sumDelta_map_setg, sumSize_map_setg]
  simp

/-- C3 (amended): for a time-sorted table forming one bucket with at least
2 records, all adjacent pairs passing the 300-second contiguity test and
no `Grupo` pre-assigned to the first record, `read_obs` returns exactly
one group — but it spans the records *after* the run's anchor (first)
record: the summary reports the SECOND record's start timestamp, the sum
of DELTA over records 2..n rounded to the second, and the sum of Size
over records 2..n divided by 1024 (GiB) rounded to 2 decimals. -/
theorem read_obs_single_bucket_group (r0 r1 : FileRow) (rest : List FileRow)
    (hb : ∀ r ∈ r0 :: r1 :: rest, bucketKey r = bucketKey r0)
    (hg : r0.grupo = none)
    (hc : List.Chain' (fun a b => |b.dateStart - a.dateStart - b.delta| < 300)
      (r0 :: r1 :: rest)) :
    (read_obs (r0 :: r1 :: rest)).2
      = [{ grupo := 0, dateStart := r1.dateStart,
           delta := roundHalfEven (sumDelta (r1 :: rest)),
           sizeGiB := npRound2 (sumSize (r1 :: rest) / 1024),
           minfreq := r1.minfreq, maxfreq := r1.maxfreq, naxis1 := r1.naxis1 }] := by
  rw [read_obs_single_bucket_eval r0 r1 rest hb hg hc]

/-- First record of a two-file contiguous observation: 512 MiB, 10 s long,
starting at t = 0, bucket (45 MHz, 870 MHz, 100). -/
def rowR0 : FileRow :=
  { file := "r0", size := 512, delta := 10, dateStart := 0, minfreq := 45, maxfreq := 870,
    naxis1 := 100, naxis2 := 4, grupo := none }

/-- Second record: 512 MiB, 10 s long, starting exactly when `rowR0`
ends (t = 10). -/
def rowR1 : FileRow :=
  { file := "r1", size := 512, delta := 10, dateStart := 10, minfreq := 45, maxfreq := 870,
    naxis1 := 100, naxis2 := 4, grupo := none }

/-- Witness for C3 (amended) at the two-record contiguous bucket. -/
theorem read_obs_single_bucket_group_witness :
    (read_obs [rowR0, rowR1]).2
      = [{ grupo := 0, dateStart := rowR1.dateStart,
           delta := roundHalfEven (sumDelta [rowR1]),
           sizeGiB := npRound2 (sumSize [rowR1] / 1024),
           minfreq := rowR1.minfreq, maxfreq := rowR1.maxfreq, naxis1 := rowR1.naxis1 }] :=
  read_obs_single_bucket_group rowR0 rowR1 []
    (by intro r hr; fin_cases hr <;> rfl) rfl
    (by norm_num [List.chain'_cons, rowR0, rowR1])

/-- C3 counterexample: the bucket `[rowR0, rowR1]` satisfies the claim's
hypotheses (2 records, gap 0 < 300 s with either delta convention), yet
the single group returned by `read_obs` excludes the anchor `rowR0`: the
summary reports start 10 (not the anchor's 0), total DELTA 10 s (not
10+10 = 20), and 0.5 GiB (not (512+512)/1024 = 1.0). -/
theorem read_obs_group_excludes_anchor :
    (read_obs [rowR0, rowR1]).2
      = [{ grupo := 0, dateStart := 10, delta := 10, sizeGiB := 1/2, minfreq := 45,
           maxfreq := 870, naxis1 := 100 }] ∧
    |rowR1.dateStart - rowR0.dateStart - rowR0.delta| < 300 ∧
    rowR0.dateStart ≠ (10 : ℚ) ∧
    roundHalfEven (rowR0.delta + rowR1.delta) ≠ (10 : ℤ) ∧
    npRound2 ((rowR0.size + rowR1.size) / 1024) ≠ (1/2 : ℚ) := by
  refine ⟨?_, ?_, ?_, ?_, ?_⟩
  · have h := read_obs_single_bucket_eval rowR0 rowR1 []
      (by intro r hr; fin_cases hr <;> rfl) rfl
      (by norm_num [List.chain'_cons, rowR0, rowR1])
    rw [h]
    norm_num [rowR0, rowR1, sumDelta, sumSize, roundHalfEven, npRound2]
  · norm_num [rowR0, rowR1]
  · norm_num [rowR0]
  · norm_num [rowR0, rowR1, roundHalfEven]
  · norm_num [rowR0, rowR1, npRound2, roundHalfEven]

/-- Forget the `Grupo` column of a row. -/
def clearGrupo (r : FileRow) : FileRow := { r with grupo := none }

theorem setGrupo_map_clearGrupo (rows : List FileRow) (idxs : List ℕ) (ii : ℤ) :
    (setGrupo rows idxs ii).map clearGrupo = rows.map clearGrupo := by
  unfold setGrupo
  rw [List.map_map]
  have h : ∀ p ∈ rows.enum,
      (clearGrupo ∘ fun p => if p.1 ∈ idxs then { p.2 with grupo := some ii } else p.2) p
        = (clearGrupo ∘ Prod.snd) p := by
    intro p _
    by_cases hp : p.1 ∈ idxs <;> simp [clearGrupo, hp, Function.comp]
  rw [List.map_congr_left h, ← List.map_map, List.enum_map_snd]

theorem foldl_setGrupo_map_clearGrupo :
    ∀ (runs : List (ℕ × List (ℕ × ℕ))) (acc : List FileRow),
      ((runs.foldl (fun rows p => setGrupo rows (p.2.map Prod.fst) (p.1 : ℤ)) acc).map
        clearGrupo) = acc.map clearGrupo
  | [], _ => rfl
  | p :: runs, acc => by
    rw [List.foldl_cons, foldl_setGrupo_map_clearGrupo runs _, setGrupo_map_clearGrupo]

/-- C9 (amended): `read_obs` changes at most the `Grupo` column of its
input table — after erasing that column, the table it returns alongside
the summary equals the input. (The `Grupo` column itself IS written in
place, refuting the claim's stronger "leaves the input unchanged".) -/
theorem read_obs_changes_only_grupo (df : List FileRow) :
    ((read_obs df).1).map clearGrupo = df.map clearGrupo := by
  show (assignGroups df).map clearGrupo = df.map clearGrupo
  unfold assignGroups
  exact foldl_setGrupo_map_clearGrupo _ df

/-- C9 counterexample: on the two-record contiguous bucket, `read_obs`
hands back a table that differs from its input — the second record now
carries `Grupo = 0`. -/
theorem read_obs_mutates_input : (read_obs [rowR0, rowR1]).1 ≠ [rowR0, rowR1] := by
  have h := read_obs_single_bucket_eval rowR0 rowR1 []
    (by intro r hr; fin_cases hr <;> rfl) rfl
    (by norm_num [List.chain'_cons, rowR0, rowR1])
  have h1 : (read_obs [rowR0, rowR1]).1 = [rowR0, { rowR1 with grupo := some (0:ℤ) }] := by
    rw [h]
    simp
  rw [h1]
  simp [rowR1]

/-! ## Data loader: `load_fits` (uirapurudsp.py lines 119–150)

```python
def load_fits(obs, chunks_idx=None, threshold=200):
    if chunks_idx is None:
        chunks_idx = [0, 10]
    chunks = chunk_files(obs, threshold=threshold)
    if chunks_idx[1] > len(chunks):
        chunks[1] = len(chunks)          # replaces the SECOND CHUNK by an int
    data = []
    timestamps = []
    for chunk in chunks[chunks_idx[0] : chunks_idx[1]]:
        for file in chunk:
            with fits.open(file) as hdul:
                times = hdul[1].data[0][0]
                freqs = da.from_array(hdul[1].data[0][1].byteswap().newbyteorder())
                time_vector = da.from_array(pd.to_datetime(...) + pd.to_timedelta(times, unit="s"))
                datum = da.from_array(hdul[0].data)
            timestamps.append(time_vector)
            data.append(datum)
        dda = da.concatenate(data)
        time_index = da.concatenate(timestamps)
    Xda = xr.DataArray(dda, dims=("Time", "Freq"), coords=...)
    return Xda
```

Per-file FITS reading is abstracted by an environment `env` mapping a file
name to its contents (`start` is the parsed DATE-OBS+TIME-OBS timestamp;
`byteswap().newbyteorder()` is the identity on values). `chunks_idx`
models the two-element list `[start, end]` with non-negative entries.
Because `chunks[1] = len(chunks)` stores an integer into the chunk list,
list entries are modelled as a sum of a chunk or an int; iterating an
int raises TypeError, `da.concatenate([])` raises ValueError, list
assignment past the end raises IndexError, and reaching the final
`xr.DataArray(dda, ...)` with no loop iteration executed raises
UnboundLocalError (`dda`, `time_index`, `freqs` unbound). -/

/-- Contents of one FITS file as consumed by `load_fits`. -/
structure FitsFile where
  start : ℚ
  times : List ℚ
  freqs : List ℚ
  datum : List (List ℚ)
deriving DecidableEq, Repr

/-- An element of the Python list `chunks` after the (buggy) assignment
`chunks[1] = len(chunks)`: either a chunk of file names or an integer. -/
inductive Entry where
  | chunk (files : List String)
  | intval (n : ℕ)
deriving DecidableEq, Repr

/-- The loader loop's local variables: the growing `data` and `timestamps`
lists, and the last values (if any) assigned to `dda`, `time_index` and
`freqs`. -/
structure LoadState where
  data : List (List (List ℚ))
  timestamps : List (List ℚ)
  dda : Option (List (List ℚ))
  time_index : Option (List ℚ)
  freqs : Option (List ℚ)
deriving DecidableEq, Repr

/-- The labelled array returned by `load_fits` (values, Time coordinate,
Freq coordinate). -/
structure LoadedSeries where
  values : List (List ℚ)
  time : List ℚ
  freq : List ℚ
deriving DecidableEq, Repr

/-- Body of the inner `for file in chunk` loop. -/
def processFile (env : String → FitsFile) (s : LoadState) (file : String) : LoadState :=
  let f := env file
  let time_vector := f.times.map (fun t => f.start + t)
  { s with timestamps := s.timestamps ++ [time_vector],
           data := s.data ++ [f.datum],
           freqs := some f.freqs }

/-- Body of the outer `for chunk in chunks[...]` loop: iterating an `int`
entry raises TypeError; after the inner loop, `dda`/`time_index` are
re-assigned to the concatenation of everything read so far
(`da.concatenate` on an empty list raises ValueError). -/
def processEntry (env : String → FitsFile) (s : LoadState) (e : Entry) :
    Except String LoadState :=
  match e with
  | .intval _ => .error "TypeError: int object is not iterable"
  | .chunk files =>
    let s2 := files.foldl (processFile env) s
    if s2.data.isEmpty then .error "ValueError: need at least one array to concatenate"
    else .ok { s2 with dda := some s2.data.flatten, time_index := some s2.timestamps.flatten }

/-- The outer loop with Python exception propagation. -/
def processEntries (env : String → FitsFile) : List Entry → LoadState → Except String LoadState
  | [], s => .ok s
  | e :: es, s =>
    match processEntry env s e with
    | .error msg => .error msg
    | .ok s2 => processEntries env es s2

/-- Model of `load_fits(obs, chunks_idx=[0, 10], threshold=200)`. -/
def load_fits (env : String → FitsFile) (obs : List FileRow)
    (chunks_idx : ℕ × ℕ := (0, 10)) (threshold : ℚ := 200) : Except String LoadedSeries :=
  let chunks0 : List Entry := (chunk_files obs threshold).map Entry.chunk
  let clamped : Except String (List Entry) :=
    if chunks0.length < chunks_idx.2 then
      (if 1 < chunks0.length then Except.ok (chunks0.set 1 (Entry.intval chunks0.length))
       else Except.error "IndexError: list assignment index out of range")
    else Except.ok chunks0
  match clamped with
  | .error e => .error e
  | .ok chunks =>
    match processEntries env ((chunks.take chunks_idx.2).drop chunks_idx.1)
        ⟨[], [], none, none, none⟩ with
    | .error e => .error e
    | .ok st =>
      match st.dda, st.time_index, st.freqs with
      | some d, some t, some f => .ok ⟨d, t, f⟩
      | _, _, _ => .error "UnboundLocalError: local variable referenced before assignment"

/-- C5: requesting the empty chunk range [0, 0) from `load_fits` does not
yield an empty result — the loop body never runs, `dda` is never bound,
and the final `xr.DataArray(dda, ...)` raises UnboundLocalError, for every
environment, every observation table and every threshold. -/
theorem load_fits_empty_range_errors (env : String → FitsFile) (obs : List FileRow) (th : ℚ) :
    load_fits env obs (0, 0) th
      = Except.error "UnboundLocalError: local variable referenced before assignment" := by
  simp [load_fits, processEntries, Nat.not_lt_zero]

/-- Six 200-MB rows: `chunk_files` at threshold 200 closes three
single-file chunks (and drops every second file at the boundaries). -/
def obsSix : List FileRow :=
  [mkRow "h1" 200, mkRow "h2" 200, mkRow "h3" 200,
   mkRow "h4" 200, mkRow "h5" 200, mkRow "h6" 200]

/-- An environment where every file holds one sample at t = 0, one
frequency bin and a 1×1 data array. -/
def envZero : String → FitsFile :=
  fun _ => { start := 0, times := [0], freqs := [0], datum := [[0]] }

/-- C4: with 3 available chunks, requesting range [0, 1000) does not
behave like [0, 3): the guard executes `chunks[1] = len(chunks)`, which
replaces the second chunk by the integer 3, and the load then fails with
TypeError when iterating it — while [0, 3) succeeds. The end bound is
never clamped (the slice is what tolerates it), and the chunk list is
corrupted rather than left unchanged. -/
theorem load_fits_clamping_bug :
    chunk_files obsSix 200 = [["h1"], ["h3"], ["h5"]] ∧
    load_fits envZero obsSix (0, 1000) 200
      = Except.error "TypeError: int object is not iterable" ∧
    load_fits envZero obsSix (0, 3) 200
      = Except.ok { values := [[0], [0], [0]], time := [0, 0, 0], freq := [0] } := by
  have hch : chunk_files obsSix 200 = [["h1"], ["h3"], ["h5"]] := by
    norm_num [chunk_files, chunkLoop, chunkStep, obsSix, mkRow]
  refine ⟨hch, ?_, ?_⟩ <;>
    (unfold load_fits; rw [hch]) <;>
    norm_num [processEntries, processEntry, processFile, envZero]

end UirapuruDSP
